import Mathlib

/-!
# py-gpio: the interrupt dispatch engine of `gpiomodule.c`

A shallow embedding of the callback registry (`get_poll_cb`, `add_poll_cb`,
`del_poll_cb`), of the dispatcher thread (`t_bootstrap`) and of the attribute
accessors `GPIO_get_callback` / `GPIO_set_callback`, followed by the theorems
that settle the properties stated about them.

Modelling conventions
* C `int` values are `Int` (no overflow is reachable in the properties below).
* A `PyObject *` is its address, a `Nat`; `NULL` is address `0`.
* The singly linked list `global_poll_cb_info` is a Lean `List`, the head of the
  C list being the head of the Lean list; the `next` pointers are the list order.
* `global_pfd` is a map from index to `pollfd`.  The declared C array has
  `global_pfd_len = 16` elements, indices `0 .. 15`.  Every index at which
  `add_poll_cb` or `del_poll_cb` touches the array is recorded in the ghost
  field `pfd_access`, so that bounds can be stated and checked.
* Dereferencing a `NULL` pointer is a failure (`none` / `Exit.crashed`).
* `del_poll_cb` has two further ways of leaving defined C behaviour, and in the model
  it then has no result but a `Fault`: an access to `global_pfd` at an index outside
  `0 .. 15`, and the read of the `next` field of the list head after the head has
  been freed.
-/

namespace GpioModule

/-! ## Data model -/

/-- A `PyObject *`, represented by its address. -/
abbrev PyObject := Nat

/-- The null pointer. -/
def NULL : PyObject := 0

/-- Event bit `POLLPRI` of `<poll.h>` (Linux value). -/
def POLLPRI : Nat := 2

/-- Event bit `POLLERR` of `<poll.h>` (Linux value). -/
def POLLERR : Nat := 8

/-- One node of the linked list: `struct poll_cb_info` without its `next` pointer,
which is the position in the Lean list. -/
structure poll_cb_info where
  callback : PyObject
  fd : Int
  idx : Int
deriving DecidableEq, Repr

/-- The `struct pollfd` of `<poll.h>`. -/
structure pollfd where
  fd : Int
  events : Nat
  revents : Nat
deriving DecidableEq, Repr

/-- Number of elements of the C array `struct pollfd global_pfd[16]`. -/
def global_pfd_len : Int := 16

/-- The registry globals of the module: the list head `global_poll_cb_info`, the
counter `global_nfds`, the array `global_pfd`, and the ghost log `pfd_access` of
the indices at which `add_poll_cb` / `del_poll_cb` accessed `global_pfd`
(most recent first). -/
structure Registry where
  global_poll_cb_info : List poll_cb_info
  global_nfds : Int
  global_pfd : Int → pollfd
  pfd_access : List Int

/-- The registry as `initgpio` leaves it: `global_poll_cb_info = NULL`,
`global_nfds = 0`, and `global_pfd` zero-initialised (static storage). -/
def registry_init : Registry :=
  { global_poll_cb_info := []
    global_nfds := 0
    global_pfd := fun _ => { fd := 0, events := 0, revents := 0 }
    pfd_access := [] }

/-- Assignment `a[k] = v` on the array map. -/
def pfd_store (a : Int → pollfd) (k : Int) (v : pollfd) : Int → pollfd :=
  fun i => if i = k then v else a i

/-! ## The registry operations -/

/-- The loop of `get_poll_cb`: walk the list until a node with the given `fd`. -/
def get_poll_cb_walk (fd : Int) : List poll_cb_info → Option poll_cb_info
  | [] => none
  | e :: rest => if e.fd = fd then some e else get_poll_cb_walk fd rest

/-- Function `get_poll_cb`: the first node whose `fd` matches, or `none` for `NULL`. -/
def get_poll_cb (s : Registry) (fd : Int) : Option poll_cb_info :=
  get_poll_cb_walk fd s.global_poll_cb_info

/-- The ways in which `del_poll_cb` leaves defined C behaviour: an access to
`global_pfd` at an index outside the array, and a read from a node that has already
been passed to `free`. -/
inductive Fault where
  | out_of_bounds (index : Int)
  | use_after_free
deriving DecidableEq, Repr

/-- The loop of `del_poll_cb` over the nodes after the list head: find the first node
with the given `fd` and unlink it by `tmp->next = poll_cb_info_iterator->next`, `tmp`
being its predecessor; the node is freed after this read.  The result is the node
found and the nodes that remain. -/
def del_poll_cb_inner (fd : Int) :
    List poll_cb_info → Option (poll_cb_info × List poll_cb_info)
  | [] => none
  | e :: rest =>
    if e.fd = fd then some (e, rest)
    else
      match del_poll_cb_inner fd rest with
      | none => none
      | some (x, rest') => some (x, e :: rest')

/-- The assignment `global_pfd[idx].fd = global_pfd[global_nfds].fd;` of `del_poll_cb`:
first the read at index `global_nfds`, then the store at index `idx`.  An index outside
the sixteen-element array is a fault. -/
def del_poll_cb_copy (s : Registry) (idx : Int) : Except Fault (Int → pollfd) :=
  if 0 ≤ s.global_nfds ∧ s.global_nfds < global_pfd_len then
    if 0 ≤ idx ∧ idx < global_pfd_len then
      Except.ok
        (pfd_store s.global_pfd idx
          { s.global_pfd idx with fd := (s.global_pfd s.global_nfds).fd })
    else Except.error (Fault.out_of_bounds idx)
  else Except.error (Fault.out_of_bounds s.global_nfds)

/-- Function `del_poll_cb`: returns 1 if a node was deleted, 0 if none was found.
On the found node it executes
`global_pfd[node->idx].fd = global_pfd[global_nfds].fd; global_nfds--;`.
When the node is the list head, the code then calls `free(global_poll_cb_info)` and
only afterwards reads `poll_cb_info_iterator->next` from that freed node: a fault.
Any other node is unlinked from its predecessor before it is freed. -/
def del_poll_cb (s : Registry) (fd : Int) : Except Fault (Int × Registry) :=
  match s.global_poll_cb_info with
  | [] => Except.ok (0, s)
  | head :: tail =>
    if head.fd = fd then
      match del_poll_cb_copy s head.idx with
      | Except.error f => Except.error f
      | Except.ok _ => Except.error Fault.use_after_free
    else
      match del_poll_cb_inner fd tail with
      | none => Except.ok (0, s)
      | some (e, rest) =>
        match del_poll_cb_copy s e.idx with
        | Except.error f => Except.error f
        | Except.ok pfd =>
          Except.ok
            (1, { global_poll_cb_info := head :: rest
                  global_nfds := s.global_nfds - 1
                  global_pfd := pfd
                  pfd_access := e.idx :: s.global_nfds :: s.pfd_access })

/-- Function `add_poll_cb`; `malloc_ok` tells whether `malloc` returns non-`NULL`.
Returns 0 when `fd` is already registered, -1 when `malloc` fails, and otherwise
pushes a node at the head of the list, fills `global_pfd[global_nfds]`, records
`idx = global_nfds`, increments `global_nfds` and returns 0. -/
def add_poll_cb (malloc_ok : Bool) (s : Registry) (callback : PyObject) (fd : Int) :
    Int × Registry :=
  if (get_poll_cb s fd).isSome then (0, s)
  else if malloc_ok = false then (-1, s)
  else
    (0, { global_poll_cb_info :=
            { callback := callback, fd := fd, idx := s.global_nfds } ::
              s.global_poll_cb_info
          global_nfds := s.global_nfds + 1
          global_pfd :=
            pfd_store s.global_pfd s.global_nfds
              { s.global_pfd s.global_nfds with fd := fd, events := POLLPRI ||| POLLERR }
          pfd_access := s.global_nfds :: s.global_nfds :: s.pfd_access })

/-! ## The dispatcher thread `t_bootstrap` -/

/-- The externally visible actions of the dispatcher thread, in program order. -/
inductive Event where
  | poll (nfds : Int)
  | read (fd : Int)
  | call (callback : PyObject) (arg : Int)
deriving DecidableEq, Repr

/-- The environment of one pass through the body of the `while` loop.
* `retval` is what `poll(global_pfd, global_nfds, -1)` returns;
* `revents i` is what `poll` stores in `global_pfd[i].revents`;
* `read_byte fd` is the outcome of `lseek(fd, 0, SEEK_SET); read(fd, &buf, 1)`:
  `some buf` when `read` returned 1, `none` otherwise;
* `call_object cb arg s` is the outcome of `PyObject_CallObject(cb, (arg,))` started
  in registry state `s`: whether the result is non-`NULL`, and the registry the
  callback leaves behind (a callback may itself set or clear callbacks). -/
structure Wake where
  retval : Int
  revents : Int → Nat
  read_byte : Int → Option Int
  call_object : PyObject → Int → Registry → Bool × Registry

/-- The effect of a returning `poll` call on `global_pfd`: the `revents` field of
each of the first `global_nfds` elements is overwritten. -/
def poll_store (w : Wake) (s : Registry) : Registry :=
  { s with
    global_pfd := fun i =>
      if 0 ≤ i ∧ i < s.global_nfds then { s.global_pfd i with revents := w.revents i }
      else s.global_pfd i }

/-- How the `for` loop of `t_bootstrap` was left. -/
inductive Exit where
  | completed
  | broke
  | crashed
  | out_of_fuel
deriving DecidableEq, Repr

/-- The loop `for (i = 0; i < global_nfds; i++)` of `t_bootstrap`, started at index `i`.
`global_nfds` is re-read on every iteration and callbacks may change the registry,
so the loop is given fuel.  `Exit.broke` is either of the two `break` statements
(read failure, callback returned `NULL`); `Exit.crashed` is the dereference of a
`NULL` result of `get_poll_cb`. -/
def service (w : Wake) : Nat → Int → Registry → Exit × Registry × List Event
  | 0, _, s => (Exit.out_of_fuel, s, [])
  | fuel + 1, i, s =>
    if i < s.global_nfds then
      if (s.global_pfd i).revents ≠ 0 then
        match w.read_byte (s.global_pfd i).fd with
        | none => (Exit.broke, s, [Event.read (s.global_pfd i).fd])
        | some buf =>
          match get_poll_cb s (s.global_pfd i).fd with
          | none => (Exit.crashed, s, [Event.read (s.global_pfd i).fd])
          | some e =>
            let r := w.call_object e.callback (buf - 48) s
            if r.1 = true then
              let out := service w fuel (i + 1) r.2
              (out.1, out.2.1,
                Event.read (s.global_pfd i).fd :: Event.call e.callback (buf - 48) :: out.2.2)
            else
              (Exit.broke, r.2,
                [Event.read (s.global_pfd i).fd, Event.call e.callback (buf - 48)])
      else service w fuel (i + 1) s
    else (Exit.completed, s, [])

/-- How the `while` loop of `t_bootstrap` ended.  `blocked` means that `poll` was
entered and never returned (the script of wake-ups is exhausted). -/
inductive Stop where
  | registry_empty
  | poll_zero
  | poll_error
  | blocked
  | crashed
  | out_of_fuel
deriving DecidableEq, Repr

/-- The loop `while (global_nfds > 0)` of `t_bootstrap`, one `Wake` per `poll` call.
The `break` statements inside the `for` loop leave the `for` loop only, so after
`Exit.broke` control returns to the `while` condition exactly as after
`Exit.completed`. -/
def t_bootstrap_loop (fuel : Nat) : List Wake → Registry → Stop × Registry × List Event
  | [], s =>
    if s.global_nfds > 0 then (Stop.blocked, s, [Event.poll s.global_nfds])
    else (Stop.registry_empty, s, [])
  | w :: rest, s =>
    if s.global_nfds > 0 then
      if w.retval = 0 then (Stop.poll_zero, s, [Event.poll s.global_nfds])
      else if w.retval < 0 then (Stop.poll_error, s, [Event.poll s.global_nfds])
      else
        match service w fuel 0 (poll_store w s) with
        | (Exit.crashed, s', tr) => (Stop.crashed, s', Event.poll s.global_nfds :: tr)
        | (Exit.out_of_fuel, s', tr) =>
          (Stop.out_of_fuel, s', Event.poll s.global_nfds :: tr)
        | (_, s', tr) =>
          let out := t_bootstrap_loop fuel rest s'
          (out.1, out.2.1, Event.poll s.global_nfds :: (tr ++ out.2.2))
    else (Stop.registry_empty, s, [])

/-! ## The module state and the `callback` attribute -/

/-- The Python-visible object; of `struct GPIO` only the value descriptor `fd_val`
is used by the functions modelled here. -/
structure GPIO where
  fd_val : Int
deriving DecidableEq, Repr

/-- The address of `Py_None` (any non-null address). -/
def Py_None : PyObject := 1

/-- The globals of the module: the registry, the pointer `lock` (0 for `NULL`), and
the ghost count of running `t_bootstrap` threads. -/
structure Module where
  registry : Registry
  lock : Nat
  dispatchers : Nat

/-- The state set up by `initgpio`. -/
def initgpio : Module :=
  { registry := registry_init, lock := NULL, dispatchers := 0 }

/-- Getter `GPIO_get_callback`: evaluates `get_poll_cb(self->fd_val)->callback`, which
dereferences `NULL` (result `none`) when the descriptor is not registered; a `NULL`
callback is replaced by `Py_None`. -/
def GPIO_get_callback (s : Registry) (self : GPIO) : Option PyObject :=
  match get_poll_cb s self.fd_val with
  | none => none
  | some e => some (if e.callback = NULL then Py_None else e.callback)

/-- What a call of `GPIO_set_callback` gets from its environment: the predicate
behind `PyCallable_Check`, whether `malloc` succeeds, the pointer returned by
`PyThread_allocate_lock` (0 for `NULL`), and whether `PyThread_start_new_thread`
succeeds. -/
structure CallEnv where
  callable : PyObject → Bool
  malloc_ok : Bool
  new_lock : Nat
  thread_ok : Bool

/-- The CPython test `PyCallable_Check`, which answers 0 for `NULL`. -/
def PyCallable_Check (env : CallEnv) (val : PyObject) : Bool :=
  if val = NULL then false else env.callable val

/-- The opening of `GPIO_set_callback` (and of `GPIO_dealloc`):
`cb = NULL; poll_cb = get_poll_cb(fd); if (poll_cb != NULL) cb = poll_cb->callback;`. -/
def registered_callback (s : Registry) (fd : Int) : PyObject :=
  match get_poll_cb s fd with
  | none => NULL
  | some e => e.callback

/-- The second half of `GPIO_set_callback`, from the test `val == Py_None` to the end;
`r1` is the registry after the removal of the previous callback, if there was one. -/
def GPIO_set_callback_install (env : CallEnv) (m : Module) (r1 : Registry) (self : GPIO)
    (val : PyObject) : Int × Module :=
  if val = Py_None then (0, { m with registry := r1 })
  else if PyCallable_Check env val = false then (-1, { m with registry := r1 })
  else
    let r2 := (add_poll_cb env.malloc_ok r1 val self.fd_val).2
    if r2.global_nfds = 1 ∧ m.lock = NULL then
      if env.new_lock = NULL then
        (-1, { registry := r2, lock := NULL, dispatchers := m.dispatchers })
      else if env.thread_ok = false then
        (-1, { registry := r2, lock := env.new_lock, dispatchers := m.dispatchers })
      else
        (0, { registry := r2, lock := env.new_lock, dispatchers := m.dispatchers + 1 })
    else (0, { m with registry := r2 })

/-- Setter `GPIO_set_callback`, returning its result and the new module state, or the
fault of its `del_poll_cb` call. -/
def GPIO_set_callback (env : CallEnv) (m : Module) (self : GPIO) (val : PyObject) :
    Except Fault (Int × Module) :=
  let cb : PyObject := registered_callback m.registry self.fd_val
  if cb = val then Except.ok (0, m)
  else if cb ≠ NULL then
    match del_poll_cb m.registry self.fd_val with
    | Except.error f => Except.error f
    | Except.ok r => Except.ok (GPIO_set_callback_install env m r.2 self val)
  else Except.ok (GPIO_set_callback_install env m m.registry self val)

/-- The end of `t_bootstrap`: `lock = NULL` and the thread exits. -/
def t_bootstrap_exit (m : Module) : Module :=
  { m with lock := NULL, dispatchers := m.dispatchers - 1 }

/-- Function `t_bootstrap` run by a dispatcher thread against a script of wake-ups:
the `while` loop and, when the loop is left, the epilogue that clears `lock` and ends
the thread.  When `poll` never returns, or the thread crashes, the epilogue is not
reached. -/
def t_bootstrap (fuel : Nat) (script : List Wake) (m : Module) :
    Stop × Module × List Event :=
  match t_bootstrap_loop fuel script m.registry with
  | (Stop.blocked, s, tr) => (Stop.blocked, { m with registry := s }, tr)
  | (Stop.crashed, s, tr) => (Stop.crashed, { m with registry := s }, tr)
  | (Stop.out_of_fuel, s, tr) => (Stop.out_of_fuel, { m with registry := s }, tr)
  | (stop, s, tr) => (stop, t_bootstrap_exit { m with registry := s }, tr)

/-- A step of the module: a call of `GPIO_set_callback`, or the exit of a running
dispatcher whose last `poll` returned `retval`. -/
inductive Action where
  | set_callback (env : CallEnv) (self : GPIO) (val : PyObject)
  | dispatcher_exit (retval : Int)

/-- One step.  A dispatcher leaves its `while` loop when it finds `global_nfds <= 0`
or when `poll` returned zero or a negative value; otherwise the exit is not enabled
and the state stays as it is. -/
def step (m : Module) : Action → Except Fault Module
  | Action.set_callback env self val =>
    match GPIO_set_callback env m self val with
    | Except.error f => Except.error f
    | Except.ok r => Except.ok r.2
  | Action.dispatcher_exit retval =>
    if 0 < m.dispatchers ∧ (m.registry.global_nfds ≤ 0 ∨ retval ≤ 0) then
      Except.ok (t_bootstrap_exit m)
    else Except.ok m

/-- Run a sequence of steps; the run has a result when no step faults. -/
def run (m : Module) : List Action → Except Fault Module
  | [] => Except.ok m
  | a :: rest =>
    match step m a with
    | Except.error f => Except.error f
    | Except.ok m' => run m' rest

/-- The states reachable from module initialisation. -/
def Reachable (m : Module) : Prop :=
  ∃ acts : List Action, run initgpio acts = Except.ok m

/-- Whether a call of `GPIO_set_callback` started a new dispatcher thread. -/
def starts_dispatcher (env : CallEnv) (m : Module) (self : GPIO) (val : PyObject) : Prop :=
  ∃ r, GPIO_set_callback env m self val = Except.ok r ∧
    r.2.dispatchers = m.dispatchers + 1

/-! ## Sequences of registry operations -/

/-- A call of one of the two registry mutators. -/
inductive RegOp where
  | add (malloc_ok : Bool) (callback : PyObject) (fd : Int)
  | del (fd : Int)
deriving DecidableEq, Repr

/-- The registry after one mutator call. -/
def reg_step (s : Registry) : RegOp → Except Fault Registry
  | RegOp.add ok cb fd => Except.ok (add_poll_cb ok s cb fd).2
  | RegOp.del fd =>
    match del_poll_cb s fd with
    | Except.error f => Except.error f
    | Except.ok r => Except.ok r.2

/-- The registry after a sequence of mutator calls; the run has a result when no call
faults. -/
def reg_run (s : Registry) : List RegOp → Except Fault Registry
  | [] => Except.ok s
  | op :: rest =>
    match reg_step s op with
    | Except.error f => Except.error f
    | Except.ok s' => reg_run s' rest

/-- Every node of the list records a live slot that holds the node's own descriptor:
`idx < global_nfds` and `global_pfd[idx].fd == fd`. -/
def positions_valid (s : Registry) : Prop :=
  ∀ e ∈ s.global_poll_cb_info,
    e.idx < s.global_nfds ∧ (s.global_pfd e.idx).fd = e.fd

/-- No descriptor occurs in two nodes of the list. -/
def fds_distinct (s : Registry) : Prop :=
  (s.global_poll_cb_info.map poll_cb_info.fd).Nodup

/-- Successful registrations of the descriptors `1, 2, ..., k` (in this order) with
callbacks `101, 102, ...`. -/
def add_first (k : Nat) : List RegOp :=
  (List.range k).map (fun i => RegOp.add true (101 + i) ((i : Int) + 1))

/-- The registry holding descriptor 5 (callback 100) and descriptor 7 (callback 200),
registered in this order on the empty registry. -/
def reg_5_7 : Registry :=
  (add_poll_cb true (add_poll_cb true registry_init 100 5).2 200 7).2

/-! ## Wake cycles used in the statements about the dispatcher -/

/-- What one wake cycle is stated to do for slot `i`: nothing when `revents` is zero,
otherwise one read of the slot's own descriptor followed by one call of the callback
registered for that descriptor, applied to the byte just read minus 48. -/
def expected_slot (w : Wake) (s : Registry) (i : Int) : List Event :=
  if (s.global_pfd i).revents ≠ 0 then
    match w.read_byte (s.global_pfd i).fd, get_poll_cb s (s.global_pfd i).fd with
    | some buf, some e =>
      [Event.read (s.global_pfd i).fd, Event.call e.callback (buf - 48)]
    | _, _ => []
  else []

/-- What one wake cycle is stated to do for the `k` slots `i, i + 1, ..., i + k - 1`,
in increasing order. -/
def expected_calls (w : Wake) (s : Registry) : Nat → Int → List Event
  | 0, _ => []
  | k + 1, i => expected_slot w s i ++ expected_calls w s k (i + 1)

/-- What one wake cycle is stated to do: slots `0 .. global_nfds - 1` in increasing order. -/
def expected_cycle (w : Wake) (s : Registry) : List Event :=
  expected_calls w s s.global_nfds.toNat 0

/-- A wake-up on which every slot is ready and every read fails. -/
def wake_read_fails : Wake :=
  { retval := 1
    revents := fun _ => POLLPRI
    read_byte := fun _ => none
    call_object := fun _ _ s => (true, s) }

/-- A wake-up on which every slot is ready, reads succeed (descriptor 5 reads `'1'`,
any other `'0'`) and every callback raises. -/
def wake_callback_raises : Wake :=
  { retval := 1
    revents := fun _ => POLLPRI
    read_byte := fun fd => some (if fd = 5 then 49 else 48)
    call_object := fun _ _ s => (false, s) }

/-- A wake-up on which every slot is ready, reads succeed (descriptor 5 reads `'1'`,
any other `'0'`) and every callback returns normally without touching the registry. -/
def wake_all_ready : Wake :=
  { retval := 2
    revents := fun _ => POLLPRI
    read_byte := fun fd => some (if fd = 5 then 49 else 48)
    call_object := fun _ _ s => (true, s) }

/-- A wake-up on which only slot 1 is ready. -/
def wake_slot_1 : Wake :=
  { retval := 1
    revents := fun i => if i = 1 then POLLPRI else 0
    read_byte := fun fd => some (if fd = 5 then 49 else 48)
    call_object := fun _ _ s => (true, s) }

/-- A `poll` call that fails. -/
def wake_poll_error : Wake :=
  { retval := -1
    revents := fun _ => 0
    read_byte := fun _ => none
    call_object := fun _ _ s => (true, s) }

/-! ## Module runs used in the statements about the dispatcher life cycle -/

/-- An environment in which every object is callable and every allocation and the
thread start succeed; `PyThread_allocate_lock` returns address 77. -/
def env_ok : CallEnv :=
  { callable := fun _ => true, malloc_ok := true, new_lock := 77, thread_ok := true }

/-- Register descriptor 5 (callback 100), then descriptor 7 (callback 200). -/
def acts_register_two : List Action :=
  [Action.set_callback env_ok { fd_val := 5 } 100,
   Action.set_callback env_ok { fd_val := 7 } 200]

/-- Register descriptors 5 and 7; then the dispatcher leaves its loop because `poll`
returned -1. -/
def acts_register_two_poll_fails : List Action :=
  acts_register_two ++ [Action.dispatcher_exit (-1)]

/-- The module after `acts_register_two`: descriptors 5 and 7 registered, `lock` set,
one dispatcher running. -/
def module_5_7 : Module :=
  { registry := reg_5_7, lock := 77, dispatchers := 1 }

/-- The module after `acts_register_two_poll_fails`: descriptors 5 and 7 registered,
`lock == NULL`, no dispatcher. -/
def module_5_7_idle : Module :=
  { registry := reg_5_7, lock := NULL, dispatchers := 0 }

/-- The invariant of the life cycle: at most one dispatcher, and none unless `lock`
is set. -/
def lifecycle_inv (m : Module) : Prop :=
  m.dispatchers ≤ 1 ∧ (0 < m.dispatchers → m.lock ≠ NULL)

/-! ## Auxiliary facts about the list walks -/

theorem get_walk_none_iff (fd : Int) (l : List poll_cb_info) :
    get_poll_cb_walk fd l = none ↔ fd ∉ l.map poll_cb_info.fd := by
  induction l with
  | nil => simp [get_poll_cb_walk]
  | cons e rest ih =>
    by_cases h : e.fd = fd
    · simp [get_poll_cb_walk, h]
    · have h' : ¬ fd = e.fd := fun x => h x.symm
      simp [get_poll_cb_walk, h, h', ih]

theorem get_walk_some_fd (fd : Int) (l : List poll_cb_info) (e : poll_cb_info)
    (h : get_poll_cb_walk fd l = some e) : e.fd = fd ∧ e ∈ l := by
  induction l with
  | nil => simp [get_poll_cb_walk] at h
  | cons x rest ih =>
    by_cases hx : x.fd = fd
    · simp [get_poll_cb_walk, hx] at h
      subst h
      exact ⟨hx, List.mem_cons_self _ _⟩
    · simp [get_poll_cb_walk, hx] at h
      exact ⟨(ih h).1, List.mem_cons_of_mem _ (ih h).2⟩

theorem del_inner_none_iff (fd : Int) (l : List poll_cb_info) :
    del_poll_cb_inner fd l = none ↔ get_poll_cb_walk fd l = none := by
  induction l with
  | nil => simp [del_poll_cb_inner, get_poll_cb_walk]
  | cons e rest ih =>
    by_cases h : e.fd = fd
    · simp [del_poll_cb_inner, get_poll_cb_walk, h]
    · simp only [del_poll_cb_inner, get_poll_cb_walk, h, if_false]
      rw [← ih]
      cases hd : del_poll_cb_inner fd rest with
      | none => simp
      | some p => simp

theorem del_inner_some (fd : Int) :
    ∀ (l : List poll_cb_info) (e : poll_cb_info) (rest : List poll_cb_info),
      del_poll_cb_inner fd l = some (e, rest) →
      get_poll_cb_walk fd l = some e ∧ e.fd = fd ∧
      rest.length + 1 = l.length ∧
      (∀ g, g ≠ fd → get_poll_cb_walk g rest = get_poll_cb_walk g l) ∧
      (∀ x, x ∈ rest → x ∈ l) ∧
      ((l.map poll_cb_info.fd).Nodup →
        get_poll_cb_walk fd rest = none ∧ (rest.map poll_cb_info.fd).Nodup) := by
  intro l
  induction l with
  | nil => intro e rest h; simp [del_poll_cb_inner] at h
  | cons x xs ih =>
    intro e rest h
    by_cases hx : x.fd = fd
    · simp [del_poll_cb_inner, hx] at h
      obtain ⟨h1, h2⟩ := h
      subst h1; subst h2
      refine ⟨by simp [get_poll_cb_walk, hx], hx, rfl, ?_, ?_, ?_⟩
      · intro g hg
        have : ¬ x.fd = g := fun c => hg (c ▸ hx ▸ rfl)
        simp [get_poll_cb_walk, this]
      · intro y hy; exact List.mem_cons_of_mem _ hy
      · intro hnd
        simp only [List.map_cons, List.nodup_cons] at hnd
        refine ⟨?_, hnd.2⟩
        rw [get_walk_none_iff, ← hx]
        exact hnd.1
    · simp only [del_poll_cb_inner, hx, if_false] at h
      cases hd : del_poll_cb_inner fd xs with
      | none => simp [hd] at h
      | some p =>
        obtain ⟨y, ys⟩ := p
        simp [hd] at h
        obtain ⟨h1, h2⟩ := h
        subst h1; subst h2
        obtain ⟨i1, i2, i3, i4, i5, i6⟩ := ih y ys hd
        refine ⟨by simp [get_poll_cb_walk, hx, i1], i2, by simp [← i3], ?_, ?_, ?_⟩
        · intro g hg
          by_cases hxg : x.fd = g
          · simp [get_poll_cb_walk, hxg]
          · simp [get_poll_cb_walk, hxg, i4 g hg]
        · intro z hz
          rcases List.mem_cons.mp hz with hz | hz
          · subst hz; exact List.mem_cons_self _ _
          · exact List.mem_cons_of_mem _ (i5 z hz)
        · intro hnd
          simp only [List.map_cons, List.nodup_cons] at hnd
          obtain ⟨j1, j2⟩ := i6 hnd.2
          refine ⟨by simp [get_poll_cb_walk, hx, j1], ?_⟩
          simp only [List.map_cons, List.nodup_cons]
          refine ⟨?_, j2⟩
          intro hmem
          apply hnd.1
          obtain ⟨z, hz, hzfd⟩ := List.mem_map.mp hmem
          exact List.mem_map.mpr ⟨z, i5 z hz, hzfd⟩

theorem add_poll_cb_keeps_distinct (ok : Bool) (s : Registry) (cb : PyObject) (g : Int)
    (hd : fds_distinct s) : fds_distinct (add_poll_cb ok s cb g).2 := by
  unfold add_poll_cb
  cases hg : get_poll_cb s g with
  | some e => simpa [hg] using hd
  | none =>
    cases ok with
    | false => simpa [hg] using hd
    | true =>
      have hmem : g ∉ s.global_poll_cb_info.map poll_cb_info.fd :=
        (get_walk_none_iff g _).mp hg
      have hd' : (s.global_poll_cb_info.map poll_cb_info.fd).Nodup := hd
      have hcons : (g :: s.global_poll_cb_info.map poll_cb_info.fd).Nodup :=
        List.nodup_cons.mpr ⟨hmem, hd'⟩
      simpa [hg, fds_distinct] using hcons

theorem del_poll_cb_ok (s : Registry) (g : Int) (r : Int × Registry)
    (h : del_poll_cb s g = Except.ok r) :
    r = (0, s) ∨
    ∃ head tail e rest pfd,
      s.global_poll_cb_info = head :: tail ∧ head.fd ≠ g ∧
      del_poll_cb_inner g tail = some (e, rest) ∧
      del_poll_cb_copy s e.idx = Except.ok pfd ∧
      r = (1, { global_poll_cb_info := head :: rest
                global_nfds := s.global_nfds - 1
                global_pfd := pfd
                pfd_access := e.idx :: s.global_nfds :: s.pfd_access }) := by
  unfold del_poll_cb at h
  cases hl : s.global_poll_cb_info with
  | nil =>
    rw [hl] at h
    simp only [Except.ok.injEq] at h
    exact Or.inl h.symm
  | cons head tail =>
    rw [hl] at h
    simp only at h
    by_cases hh : head.fd = g
    · simp only [hh, if_true] at h
      cases hc : del_poll_cb_copy s head.idx with
      | error f => rw [hc] at h; cases h
      | ok pfd => rw [hc] at h; cases h
    · simp only [hh, if_false] at h
      cases hi : del_poll_cb_inner g tail with
      | none =>
        rw [hi] at h
        simp only [Except.ok.injEq] at h
        exact Or.inl h.symm
      | some q =>
        obtain ⟨e, rest⟩ := q
        rw [hi] at h
        simp only at h
        cases hc : del_poll_cb_copy s e.idx with
        | error f => rw [hc] at h; cases h
        | ok pfd =>
          rw [hc] at h
          simp only [Except.ok.injEq] at h
          exact Or.inr ⟨head, tail, e, rest, pfd, rfl, hh, hi, hc, h.symm⟩

theorem del_poll_cb_keeps_distinct (s : Registry) (g : Int) (r : Int × Registry)
    (hd : fds_distinct s) (h : del_poll_cb s g = Except.ok r) : fds_distinct r.2 := by
  rcases del_poll_cb_ok s g r h with h0 | ⟨head, tail, e, rest, pfd, hl, hh, hi, _, hr⟩
  · rw [h0]; exact hd
  · rw [hr]
    have hfull : del_poll_cb_inner g (head :: tail) = some (e, head :: rest) := by
      simp [del_poll_cb_inner, hh, hi]
    have hd' : ((head :: tail).map poll_cb_info.fd).Nodup := by
      have := hd
      unfold fds_distinct at this
      rwa [hl] at this
    exact ((del_inner_some g _ e (head :: rest) hfull).2.2.2.2.2 hd').2

theorem reg_run_distinct (ops : List RegOp) (s s' : Registry) (hd : fds_distinct s)
    (h : reg_run s ops = Except.ok s') : fds_distinct s' := by
  induction ops generalizing s with
  | nil =>
    simp only [reg_run, Except.ok.injEq] at h
    rw [← h]; exact hd
  | cons op rest ih =>
    simp only [reg_run] at h
    cases hs : reg_step s op with
    | error f => rw [hs] at h; cases h
    | ok s1 =>
      rw [hs] at h
      simp only at h
      apply ih s1 _ h
      cases op with
      | add ok cb fd =>
        simp only [reg_step, Except.ok.injEq] at hs
        rw [← hs]
        exact add_poll_cb_keeps_distinct ok s cb fd hd
      | del fd =>
        simp only [reg_step] at hs
        cases hdel : del_poll_cb s fd with
        | error f => rw [hdel] at hs; cases hs
        | ok r =>
          rw [hdel] at hs
          simp only [Except.ok.injEq] at hs
          rw [← hs]
          exact del_poll_cb_keeps_distinct s fd r hd hdel

/-! ## The registry: removal -/

/-- C1, evaluated on the code.  After registering descriptors 5 and 7 on the empty
registry, both nodes record their true slot; `del_poll_cb(5)` then leaves the node of
descriptor 7 with `idx = 1` although `global_nfds = 1`, and slot 0 holds descriptor 0
instead of a registered one: the positions are no longer valid. -/
theorem positions_invalid_after_del :
    positions_valid reg_5_7 ∧
    (∃ r, del_poll_cb reg_5_7 5 = Except.ok r ∧
      r.1 = 1 ∧
      r.2.global_poll_cb_info = [{ callback := 200, fd := 7, idx := 1 }] ∧
      r.2.global_nfds = 1 ∧
      (r.2.global_pfd 0).fd = 0) ∧
    (∃ s, reg_run registry_init
        [RegOp.add true 100 5, RegOp.add true 200 7, RegOp.del 5] = Except.ok s ∧
      ¬ positions_valid s) := by
  refine ⟨?_, ⟨_, rfl, by decide, by decide, by decide, by decide⟩, ⟨_, rfl, ?_⟩⟩
  · intro e he
    have hl : reg_5_7.global_poll_cb_info =
        [{ callback := 200, fd := 7, idx := 1 }, { callback := 100, fd := 5, idx := 0 }] := by
      decide
    rw [hl] at he
    simp only [List.mem_cons, List.mem_singleton, List.not_mem_nil, or_false] at he
    rcases he with he | he <;> subst he <;> decide
  · intro hv
    have h := (hv { callback := 200, fd := 7, idx := 1 } (by decide)).1
    revert h
    decide

/-- C2, evaluated on the code.  With descriptors 5 and 7 in slots 0 and 1
(`global_nfds = 2`), `del_poll_cb(5)` frees slot `p = 0 < n - 1`.  Afterwards
`global_nfds = 1`, but slot 0 holds the `fd` of slot 2 (index `global_nfds`, here the
zero-initialised element) and not descriptor 7 of the last live slot 1. -/
theorem del_poll_cb_copies_slot_past_last :
    reg_5_7.global_nfds = 2 ∧
    get_poll_cb reg_5_7 5 = some { callback := 100, fd := 5, idx := 0 } ∧
    (reg_5_7.global_pfd 1).fd = 7 ∧
    (reg_5_7.global_pfd 2).fd = 0 ∧
    (∃ r, del_poll_cb reg_5_7 5 = Except.ok r ∧
      r.2.global_nfds = 1 ∧
      (r.2.global_pfd 0).fd = (reg_5_7.global_pfd 2).fd ∧
      (r.2.global_pfd 0).fd ≠ (reg_5_7.global_pfd (2 - 1)).fd) := by
  refine ⟨by decide, by decide, by decide, by decide, ⟨_, rfl, ?_, ?_, ?_⟩⟩ <;> decide

/-- C3, evaluated on the code.  Descriptors 5 and 7 are registered with distinct
descriptors, the node of 7 being the list head.  Deleting the head has no defined
result: `free(global_poll_cb_info)` is followed by a read of the freed node's `next`.
The same holds for a registry with a single node.  With sixteen descriptors
registered, deleting any of them reads `global_pfd[16]`.  Deleting the node of 5,
which is not the head, does what is stated: it returns 1, 5 is no longer found,
`global_nfds` drops by one and 7 keeps its node. -/
theorem del_poll_cb_head_is_use_after_free :
    fds_distinct reg_5_7 ∧
    get_poll_cb reg_5_7 7 = some { callback := 200, fd := 7, idx := 1 } ∧
    reg_5_7.global_poll_cb_info.head? = some { callback := 200, fd := 7, idx := 1 } ∧
    del_poll_cb reg_5_7 7 = Except.error Fault.use_after_free ∧
    del_poll_cb (add_poll_cb true registry_init 100 5).2 5 =
      Except.error Fault.use_after_free ∧
    (∃ s, reg_run registry_init (add_first 16) = Except.ok s ∧
      get_poll_cb s 1 ≠ none ∧
      del_poll_cb s 1 = Except.error (Fault.out_of_bounds 16)) ∧
    (∃ r, del_poll_cb reg_5_7 5 = Except.ok r ∧
      r.1 = 1 ∧ get_poll_cb r.2 5 = none ∧
      r.2.global_nfds = reg_5_7.global_nfds - 1 ∧
      get_poll_cb r.2 7 = get_poll_cb reg_5_7 7) := by
  refine ⟨by unfold fds_distinct; decide, by decide, by decide, rfl, rfl,
    ⟨_, rfl, by decide, rfl⟩, ⟨_, rfl, by decide, by decide, by decide, by decide⟩⟩

theorem del_poll_cb_after_head (s : Registry) (h : Int) (head : poll_cb_info)
    (tail : List poll_cb_info) (e : poll_cb_info)
    (hlist : s.global_poll_cb_info = head :: tail) (hhead : head.fd ≠ h)
    (hdistinct : fds_distinct s) (hreg : get_poll_cb s h = some e)
    (hn : 0 ≤ s.global_nfds ∧ s.global_nfds < global_pfd_len)
    (hidx : 0 ≤ e.idx ∧ e.idx < global_pfd_len) :
    ∃ r, del_poll_cb s h = Except.ok r ∧
      r.1 = 1 ∧
      get_poll_cb r.2 h = none ∧
      r.2.global_nfds = s.global_nfds - 1 ∧
      (∀ g, g ≠ h → get_poll_cb r.2 g = get_poll_cb s g) := by
  have hget : get_poll_cb_walk h (head :: tail) = some e := by
    have := hreg
    unfold get_poll_cb at this
    rwa [hlist] at this
  have hget' : get_poll_cb_walk h tail = some e := by
    simpa [get_poll_cb_walk, hhead] using hget
  cases hi : del_poll_cb_inner h tail with
  | none =>
    rw [(del_inner_none_iff h tail).mp hi] at hget'
    cases hget'
  | some q =>
    obtain ⟨x, rest⟩ := q
    obtain ⟨i1, _, _, i4, _, i6⟩ := del_inner_some h tail x rest hi
    have hx : x = e := by
      rw [i1] at hget'
      exact Option.some.inj hget'
    subst hx
    have hd' : ((head :: tail).map poll_cb_info.fd).Nodup := by
      have := hdistinct
      unfold fds_distinct at this
      rwa [hlist] at this
    have hd'' : (tail.map poll_cb_info.fd).Nodup := (List.nodup_cons.mp hd').2
    have hdel : del_poll_cb s h =
        Except.ok
          (1, { global_poll_cb_info := head :: rest
                global_nfds := s.global_nfds - 1
                global_pfd :=
                  pfd_store s.global_pfd x.idx
                    { s.global_pfd x.idx with fd := (s.global_pfd s.global_nfds).fd }
                pfd_access := x.idx :: s.global_nfds :: s.pfd_access }) := by
      unfold del_poll_cb
      rw [hlist]
      simp [hhead, hi, del_poll_cb_copy, hn, hidx]
    refine ⟨_, hdel, rfl, ?_, rfl, ?_⟩
    · show get_poll_cb_walk h (head :: rest) = none
      simp [get_poll_cb_walk, hhead, (i6 hd'').1]
    · intro g hg
      show get_poll_cb_walk g (head :: rest) = get_poll_cb_walk g s.global_poll_cb_info
      rw [hlist]
      by_cases hhg : head.fd = g
      · simp [get_poll_cb_walk, hhg]
      · simp [get_poll_cb_walk, hhg, i4 g hg]

/-! ## The registry: registration -/

/-- C4, the part that fails.  Descriptor 5 is registered in `reg_5_7` and not in the
empty registry; the second registration of 5 and the successful first registration
return the same value 0, so the caller cannot tell them apart by the result. -/
theorem add_poll_cb_duplicate_same_result :
    get_poll_cb reg_5_7 5 ≠ none ∧
    get_poll_cb registry_init 5 = none ∧
    (add_poll_cb true registry_init 100 5).2.global_nfds = registry_init.global_nfds + 1 ∧
    ¬ ((add_poll_cb true reg_5_7 300 5).1 ≠ (add_poll_cb true registry_init 100 5).1) := by
  decide

/-- C4 as amended.  Registering a descriptor `h` that is already registered returns 0
(the value a successful registration returns as well) and leaves the list, the array
`global_pfd`, `global_nfds` and the access log as they were; consequently every
registry reached from the empty one by registrations and removals has pairwise
distinct descriptors. -/
theorem add_poll_cb_registered (malloc_ok : Bool) (s : Registry) (callback : PyObject)
    (h : Int) (hreg : get_poll_cb s h ≠ none) :
    (add_poll_cb malloc_ok s callback h).1 = 0 ∧
    (add_poll_cb malloc_ok s callback h).2.global_poll_cb_info = s.global_poll_cb_info ∧
    (add_poll_cb malloc_ok s callback h).2.global_pfd = s.global_pfd ∧
    (add_poll_cb malloc_ok s callback h).2.global_nfds = s.global_nfds ∧
    (add_poll_cb malloc_ok s callback h).2.pfd_access = s.pfd_access ∧
    (∀ (ops : List RegOp) (s' : Registry),
      reg_run registry_init ops = Except.ok s' → fds_distinct s') := by
  have hsome : (get_poll_cb s h).isSome = true := by
    cases hg : get_poll_cb s h with
    | none => exact absurd hg hreg
    | some e => rfl
  have hnil : fds_distinct registry_init := List.nodup_nil
  have hadd : add_poll_cb malloc_ok s callback h = (0, s) := by
    simp [add_poll_cb, hsome]
  rw [hadd]
  exact ⟨rfl, rfl, rfl, rfl, rfl,
    fun ops s' hrun => reg_run_distinct ops registry_init s' hnil hrun⟩

/-- C4 as amended, at the registry holding descriptors 5 and 7, for a second
registration of descriptor 5. -/
theorem add_poll_cb_registered_witness :
    get_poll_cb reg_5_7 5 ≠ none ∧
    ((add_poll_cb true reg_5_7 300 5).1 = 0 ∧
      (add_poll_cb true reg_5_7 300 5).2.global_poll_cb_info = reg_5_7.global_poll_cb_info ∧
      (add_poll_cb true reg_5_7 300 5).2.global_pfd = reg_5_7.global_pfd ∧
      (add_poll_cb true reg_5_7 300 5).2.global_nfds = reg_5_7.global_nfds ∧
      (add_poll_cb true reg_5_7 300 5).2.pfd_access = reg_5_7.pfd_access ∧
      (∀ (ops : List RegOp) (s' : Registry),
        reg_run registry_init ops = Except.ok s' → fds_distinct s')) :=
  ⟨by decide, add_poll_cb_registered true reg_5_7 300 5 (by decide)⟩

/-- C5.  With `n = global_nfds < 16` and `h` not registered, a registration whose
allocation succeeds returns 0; afterwards `h` is found with callback `cb` and
`idx = n`, slot `n` holds `fd = h` with events `POLLPRI | POLLERR`, `global_nfds` is
`n + 1`, every slot other than `n` (in particular slots `0 .. n-1`) is unchanged, every
descriptor found before is found with the same node (callback and `idx`), and the only
index of `global_pfd` that was accessed is `n`, which lies below the array length. -/
theorem add_poll_cb_fresh (s : Registry) (cb : PyObject) (h : Int)
    (hn : s.global_nfds < 16) (hfresh : get_poll_cb s h = none) :
    (add_poll_cb true s cb h).1 = 0 ∧
    get_poll_cb (add_poll_cb true s cb h).2 h =
      some { callback := cb, fd := h, idx := s.global_nfds } ∧
    ((add_poll_cb true s cb h).2.global_pfd s.global_nfds).fd = h ∧
    ((add_poll_cb true s cb h).2.global_pfd s.global_nfds).events = POLLPRI ||| POLLERR ∧
    (add_poll_cb true s cb h).2.global_nfds = s.global_nfds + 1 ∧
    (∀ i, i ≠ s.global_nfds → (add_poll_cb true s cb h).2.global_pfd i = s.global_pfd i) ∧
    (∀ i, 0 ≤ i → i < s.global_nfds →
      (add_poll_cb true s cb h).2.global_pfd i = s.global_pfd i) ∧
    (∀ g e, get_poll_cb s g = some e → get_poll_cb (add_poll_cb true s cb h).2 g = some e) ∧
    (add_poll_cb true s cb h).2.pfd_access =
      s.global_nfds :: s.global_nfds :: s.pfd_access ∧
    s.global_nfds < global_pfd_len := by
  have hadd : add_poll_cb true s cb h =
      (0, { global_poll_cb_info :=
              { callback := cb, fd := h, idx := s.global_nfds } :: s.global_poll_cb_info
            global_nfds := s.global_nfds + 1
            global_pfd :=
              pfd_store s.global_pfd s.global_nfds
                { s.global_pfd s.global_nfds with fd := h, events := POLLPRI ||| POLLERR }
            pfd_access := s.global_nfds :: s.global_nfds :: s.pfd_access }) := by
    simp [add_poll_cb, hfresh]
  rw [hadd]
  have hstore : ∀ i, i ≠ s.global_nfds →
      pfd_store s.global_pfd s.global_nfds
        { s.global_pfd s.global_nfds with fd := h, events := POLLPRI ||| POLLERR } i =
          s.global_pfd i := by
    intro i hi
    simp [pfd_store, hi]
  refine ⟨rfl, ?_, ?_, ?_, rfl, hstore, ?_, ?_, rfl, hn⟩
  · simp [get_poll_cb, get_poll_cb_walk]
  · simp [pfd_store]
  · simp [pfd_store]
  · intro i _ hi
    exact hstore i (ne_of_lt hi)
  · intro g e hg
    have hne : ¬ h = g := by
      intro c
      rw [c, hg] at hfresh
      exact Option.noConfusion hfresh
    have hg' : get_poll_cb_walk g s.global_poll_cb_info = some e := hg
    simp [get_poll_cb, get_poll_cb_walk, hne, hg']

/-- C5 at the registry holding descriptors 5 and 7 (`n = 2`), registering descriptor 9. -/
theorem add_poll_cb_fresh_witness :
    reg_5_7.global_nfds = 2 ∧
    get_poll_cb (add_poll_cb true reg_5_7 300 9).2 9 =
      some { callback := 300, fd := 9, idx := 2 } ∧
    (add_poll_cb true reg_5_7 300 9).2.global_nfds = 2 + 1 :=
  ⟨by decide,
   (add_poll_cb_fresh reg_5_7 300 9 (by decide) (by decide)).2.1,
   (add_poll_cb_fresh reg_5_7 300 9 (by decide) (by decide)).2.2.2.2.1⟩

/-! ## The registry: array bounds -/

/-- C10, evaluated on the code.  `add_poll_cb` has no capacity check: seventeen
registrations of distinct descriptors leave `global_nfds = 17` and the last one writes
`global_pfd[16]`.  And after sixteen registrations (`global_nfds = 16`, all indices so
far below 16) a single `del_poll_cb` reads `global_pfd[16]`.  Index 16 is outside the
sixteen-element array. -/
theorem global_pfd_index_out_of_bounds :
    (∃ s, reg_run registry_init (add_first 17) = Except.ok s ∧
      s.global_nfds = 17 ∧
      s.pfd_access.head? = some 16) ∧
    (∃ s, reg_run registry_init (add_first 16) = Except.ok s ∧
      s.global_nfds = 16 ∧
      (∀ i ∈ s.pfd_access, 0 ≤ i ∧ i < global_pfd_len) ∧
      del_poll_cb s 1 = Except.error (Fault.out_of_bounds 16)) ∧
    ¬ ((16 : Int) < global_pfd_len) := by
  refine ⟨⟨_, rfl, by decide, by decide⟩, ⟨_, rfl, by decide, by decide, rfl⟩, by decide⟩

/-! ## The `callback` attribute -/

/-- C9, evaluated on the code.  In the registry set up by `initgpio` descriptor 5 has no
entry, `get_poll_cb` returns `NULL`, and `GPIO_get_callback` dereferences it: the getter
has no result, it does not return `Py_None`. -/
theorem GPIO_get_callback_unregistered :
    get_poll_cb registry_init 5 = none ∧
    GPIO_get_callback registry_init { fd_val := 5 } = none ∧
    GPIO_get_callback registry_init { fd_val := 5 } ≠ some Py_None := by
  decide

theorem GPIO_get_callback_none_of_not_found (s : Registry) (self : GPIO)
    (hnot : get_poll_cb s self.fd_val = none) : GPIO_get_callback s self = none := by
  simp [GPIO_get_callback, hnot]

/-! ## The dispatcher -/

/-- C6, evaluated on the code.  Descriptors 5 and 7 are registered and both ready.
When the read of descriptor 5 fails, or its callback raises, descriptor 7 is not
serviced in that cycle and the `for` loop is left through `break`; but the `while`
loop is not left: `poll` is called again, and on the next wake-up both callbacks are
invoked.  The thread stops only when `poll` itself fails. -/
theorem t_bootstrap_continues_after_break :
    (service wake_read_fails 8 0 (poll_store wake_read_fails reg_5_7)).1 = Exit.broke ∧
    (service wake_read_fails 8 0 (poll_store wake_read_fails reg_5_7)).2.2 =
      [Event.read 5] ∧
    (t_bootstrap_loop 8 [wake_read_fails, wake_all_ready, wake_poll_error] reg_5_7).2.2 =
      [Event.poll 2, Event.read 5,
       Event.poll 2, Event.read 5, Event.call 100 1, Event.read 7, Event.call 200 0,
       Event.poll 2] ∧
    (service wake_callback_raises 8 0 (poll_store wake_callback_raises reg_5_7)).1 =
      Exit.broke ∧
    (t_bootstrap_loop 8 [wake_callback_raises, wake_all_ready, wake_poll_error] reg_5_7).2.2 =
      [Event.poll 2, Event.read 5, Event.call 100 1,
       Event.poll 2, Event.read 5, Event.call 100 1, Event.read 7, Event.call 200 0,
       Event.poll 2] ∧
    (t_bootstrap_loop 8 [wake_read_fails, wake_all_ready, wake_poll_error] reg_5_7).1 =
      Stop.poll_error ∧
    (t_bootstrap_loop 8 [wake_read_fails, wake_all_ready, wake_poll_error]
      reg_5_7).2.1.global_nfds = 2 := by
  decide

theorem service_completes (w : Wake) (s : Registry)
    (hread : ∀ fd, (w.read_byte fd).isSome = true)
    (hcall : ∀ cb a r, w.call_object cb a r = (true, r))
    (hreg : ∀ i, 0 ≤ i → i < s.global_nfds →
      (get_poll_cb s (s.global_pfd i).fd).isSome = true) :
    ∀ (k : Nat) (i : Int) (fuel : Nat), 0 ≤ i → (s.global_nfds - i).toNat = k → k < fuel →
      service w fuel i s = (Exit.completed, s, expected_calls w s k i) := by
  intro k
  induction k with
  | zero =>
    intro i fuel _ hk hfuel
    obtain ⟨f, rfl⟩ : ∃ f, fuel = f + 1 := ⟨fuel - 1, by omega⟩
    have hlt : ¬ i < s.global_nfds := by omega
    simp [service, hlt, expected_calls]
  | succ k ih =>
    intro i fuel hi hk hfuel
    obtain ⟨f, rfl⟩ : ∃ f, fuel = f + 1 := ⟨fuel - 1, by omega⟩
    have hlt : i < s.global_nfds := by omega
    have hrec := ih (i + 1) f (by omega) (by omega) (by omega)
    by_cases hrev : (s.global_pfd i).revents = 0
    · simp [service, hlt, hrev, expected_calls, expected_slot, hrec]
    · obtain ⟨buf, hbuf⟩ := Option.isSome_iff_exists.mp (hread (s.global_pfd i).fd)
      obtain ⟨e, he⟩ := Option.isSome_iff_exists.mp (hreg i hi hlt)
      simp [service, hlt, hrev, expected_calls, expected_slot, hbuf, he, hcall, hrec]

theorem poll_store_get_poll_cb (w : Wake) (s : Registry) (fd : Int) :
    get_poll_cb (poll_store w s) fd = get_poll_cb s fd := rfl

theorem poll_store_fd (w : Wake) (s : Registry) (i : Int) :
    ((poll_store w s).global_pfd i).fd = (s.global_pfd i).fd := by
  unfold poll_store
  by_cases h : 0 ≤ i ∧ i < s.global_nfds <;> simp [h]

/-- C7.  Take a wake cycle in which `poll` returns a positive count, every read
succeeds, every callback returns normally and leaves the registry as it is, and every
descriptor in slots `0 .. global_nfds - 1` is registered.  With more fuel than slots,
the `for` loop runs to completion, leaves the registry unchanged, and its reads and
calls are exactly `expected_cycle`: for the slots in increasing order whose `revents`
is non-zero, a read of that slot's descriptor followed by a call of the callback
registered for it with the byte read minus 48 (0 for `'0'`, 1 for `'1'`).  The whole
pass of the `while` loop is: one `poll`, these events, then the next pass. -/
theorem wake_cycle_calls (w : Wake) (s : Registry) (fuel : Nat) (rest : List Wake)
    (hlive : 0 < s.global_nfds) (hpoll : 0 < w.retval)
    (hread : ∀ fd, (w.read_byte fd).isSome = true)
    (hcall : ∀ cb a r, w.call_object cb a r = (true, r))
    (hreg : ∀ i, 0 ≤ i → i < s.global_nfds →
      (get_poll_cb s (s.global_pfd i).fd).isSome = true)
    (hfuel : s.global_nfds.toNat < fuel) :
    service w fuel 0 (poll_store w s) =
      (Exit.completed, poll_store w s, expected_cycle w (poll_store w s)) ∧
    t_bootstrap_loop fuel (w :: rest) s =
      ((t_bootstrap_loop fuel rest (poll_store w s)).1,
       (t_bootstrap_loop fuel rest (poll_store w s)).2.1,
       Event.poll s.global_nfds ::
         (expected_cycle w (poll_store w s) ++
           (t_bootstrap_loop fuel rest (poll_store w s)).2.2)) := by
  have hreg' : ∀ i, 0 ≤ i → i < (poll_store w s).global_nfds →
      (get_poll_cb (poll_store w s) ((poll_store w s).global_pfd i).fd).isSome = true := by
    intro i h0 hi
    rw [poll_store_get_poll_cb, poll_store_fd]
    exact hreg i h0 hi
  have hserv : service w fuel 0 (poll_store w s) =
      (Exit.completed, poll_store w s, expected_cycle w (poll_store w s)) :=
    service_completes w (poll_store w s) hread hcall hreg' _ 0 fuel (le_refl 0)
      (by simp) hfuel
  refine ⟨hserv, ?_⟩
  have h0 : ¬ w.retval = 0 := by omega
  have h1 : ¬ w.retval < 0 := by omega
  simp [t_bootstrap_loop, hlive, h0, h1, hserv]

/-- C7 on descriptors 5 and 7 in slots 0 and 1, both ready, descriptor 5 reading `'1'`
and descriptor 7 reading `'0'`: callback 100 is called with 1, then callback 200 with 0. -/
theorem wake_cycle_calls_witness :
    expected_cycle wake_all_ready (poll_store wake_all_ready reg_5_7) =
      [Event.read 5, Event.call 100 1, Event.read 7, Event.call 200 0] ∧
    expected_cycle wake_slot_1 (poll_store wake_slot_1 reg_5_7) =
      [Event.read 7, Event.call 200 0] ∧
    service wake_all_ready 3 0 (poll_store wake_all_ready reg_5_7) =
      (Exit.completed, poll_store wake_all_ready reg_5_7,
        expected_cycle wake_all_ready (poll_store wake_all_ready reg_5_7)) :=
  ⟨by decide, by decide,
   (wake_cycle_calls wake_all_ready reg_5_7 3 [] (by decide) (by decide)
      (fun _ => rfl) (fun _ _ _ => rfl)
      (by
        intro i h0 hi
        have h2 : i < 2 := hi
        have hcases : i = 0 ∨ i = 1 := by omega
        rcases hcases with h | h <;> subst h <;> decide)
      (by decide)).1⟩

/-! ## The dispatcher life cycle -/

theorem t_bootstrap_loop_leaves (fuel : Nat) (script : List Wake) (s : Registry) :
    ((t_bootstrap_loop fuel script s).1 = Stop.registry_empty →
      (t_bootstrap_loop fuel script s).2.1.global_nfds ≤ 0) ∧
    ((t_bootstrap_loop fuel script s).1 = Stop.poll_zero ∨
      (t_bootstrap_loop fuel script s).1 = Stop.poll_error →
      ∃ w ∈ script, w.retval ≤ 0) := by
  induction script generalizing s with
  | nil =>
    by_cases h : s.global_nfds > 0
    · simp [t_bootstrap_loop, h]
    · simp only [t_bootstrap_loop, h, if_false]
      exact ⟨(fun _ => by omega), fun c => by rcases c with c | c <;> cases c⟩
  | cons w rest ih =>
    by_cases h : s.global_nfds > 0
    · by_cases h0 : w.retval = 0
      · simp only [t_bootstrap_loop, h, h0, if_true]
        exact ⟨(fun c => by cases c), fun _ => ⟨w, List.mem_cons_self _ _, by omega⟩⟩
      · by_cases h1 : w.retval < 0
        · simp only [t_bootstrap_loop, h, h0, h1, if_true, if_false]
          exact ⟨(fun c => by cases c), fun _ => ⟨w, List.mem_cons_self _ _, by omega⟩⟩
        · rcases hs : service w fuel 0 (poll_store w s) with ⟨ex, s', tr⟩
          obtain ⟨ih1, ih2⟩ := ih s'
          cases ex with
          | crashed =>
            simp only [t_bootstrap_loop, h, h0, h1, hs, if_true, if_false]
            exact ⟨(fun c => by cases c), fun c => by rcases c with c | c <;> cases c⟩
          | out_of_fuel =>
            simp only [t_bootstrap_loop, h, h0, h1, hs, if_true, if_false]
            exact ⟨(fun c => by cases c), fun c => by rcases c with c | c <;> cases c⟩
          | completed =>
            simp only [t_bootstrap_loop, h, h0, h1, hs, if_true, if_false]
            refine ⟨ih1, fun c => ?_⟩
            obtain ⟨x, hx, hr⟩ := ih2 c
            exact ⟨x, List.mem_cons_of_mem _ hx, hr⟩
          | broke =>
            simp only [t_bootstrap_loop, h, h0, h1, hs, if_true, if_false]
            refine ⟨ih1, fun c => ?_⟩
            obtain ⟨x, hx, hr⟩ := ih2 c
            exact ⟨x, List.mem_cons_of_mem _ hx, hr⟩
    · simp only [t_bootstrap_loop, h, if_false]
      exact ⟨(fun _ => by omega), fun c => by rcases c with c | c <;> cases c⟩

theorem GPIO_set_callback_install_cases (env : CallEnv) (m : Module) (r1 : Registry)
    (self : GPIO) (val : PyObject) :
    ((GPIO_set_callback_install env m r1 self val).2.lock = m.lock ∧
      (GPIO_set_callback_install env m r1 self val).2.dispatchers = m.dispatchers ∧
      ¬ (val ≠ Py_None ∧ PyCallable_Check env val = true ∧
          (GPIO_set_callback_install env m r1 self val).2.registry.global_nfds = 1 ∧
          m.lock = NULL ∧ env.new_lock ≠ NULL ∧ env.thread_ok = true)) ∨
    (m.lock = NULL ∧ (GPIO_set_callback_install env m r1 self val).2.lock = env.new_lock ∧
      env.new_lock ≠ NULL ∧ env.thread_ok = false ∧
      (GPIO_set_callback_install env m r1 self val).2.dispatchers = m.dispatchers) ∨
    (m.lock = NULL ∧ (GPIO_set_callback_install env m r1 self val).2.lock = env.new_lock ∧
      (GPIO_set_callback_install env m r1 self val).2.dispatchers = m.dispatchers + 1 ∧
      (val ≠ Py_None ∧ PyCallable_Check env val = true ∧
          (GPIO_set_callback_install env m r1 self val).2.registry.global_nfds = 1 ∧
          m.lock = NULL ∧ env.new_lock ≠ NULL ∧ env.thread_ok = true)) := by
  unfold GPIO_set_callback_install
  simp only []
  split_ifs with h2 h3 h4 h5 h6
  · exact Or.inl ⟨rfl, rfl, fun c => c.1 h2⟩
  · refine Or.inl ⟨rfl, rfl, fun c => ?_⟩
    rw [h3] at c
    exact Bool.noConfusion c.2.1
  · exact Or.inl ⟨h4.2.symm, rfl, fun c => c.2.2.2.2.1 h5⟩
  · refine Or.inr (Or.inl ⟨h4.2, rfl, h5, h6, rfl⟩)
  · refine Or.inr (Or.inr ⟨h4.2, rfl, rfl, h2, ?_, h4.1, h4.2, h5, ?_⟩)
    · cases hc : PyCallable_Check env val with
      | false => exact absurd hc h3
      | true => rfl
    · cases hc : env.thread_ok with
      | false => exact absurd hc h6
      | true => rfl
  · exact Or.inl ⟨rfl, rfl, fun c => h4 ⟨c.2.2.1, c.2.2.2.1⟩⟩

theorem GPIO_set_callback_ok (env : CallEnv) (m : Module) (self : GPIO) (val : PyObject)
    (r : Int × Module) (h : GPIO_set_callback env m self val = Except.ok r) :
    (registered_callback m.registry self.fd_val = val ∧ r = (0, m)) ∨
    (registered_callback m.registry self.fd_val ≠ val ∧
      ∃ r1, r = GPIO_set_callback_install env m r1 self val) := by
  unfold GPIO_set_callback at h
  simp only [] at h
  by_cases h1 : registered_callback m.registry self.fd_val = val
  · simp only [h1, if_true, Except.ok.injEq] at h
    exact Or.inl ⟨h1, h.symm⟩
  · right
    refine ⟨h1, ?_⟩
    simp only [h1, if_false] at h
    by_cases h2 : registered_callback m.registry self.fd_val ≠ NULL
    · rw [if_pos h2] at h
      cases hd : del_poll_cb m.registry self.fd_val with
      | error f => rw [hd] at h; cases h
      | ok d =>
        rw [hd] at h
        simp only [Except.ok.injEq] at h
        exact ⟨d.2, h.symm⟩
    · rw [if_neg h2] at h
      simp only [Except.ok.injEq] at h
      exact ⟨m.registry, h.symm⟩

theorem GPIO_set_callback_cases (env : CallEnv) (m : Module) (self : GPIO) (val : PyObject)
    (r : Int × Module) (h : GPIO_set_callback env m self val = Except.ok r) :
    (r.2.lock = m.lock ∧ r.2.dispatchers = m.dispatchers ∧
      ¬ (registered_callback m.registry self.fd_val ≠ val ∧ val ≠ Py_None ∧
          PyCallable_Check env val = true ∧ r.2.registry.global_nfds = 1 ∧
          m.lock = NULL ∧ env.new_lock ≠ NULL ∧ env.thread_ok = true)) ∨
    (m.lock = NULL ∧ r.2.lock = env.new_lock ∧ env.new_lock ≠ NULL ∧
      env.thread_ok = false ∧ r.2.dispatchers = m.dispatchers) ∨
    (m.lock = NULL ∧ r.2.lock = env.new_lock ∧ r.2.dispatchers = m.dispatchers + 1 ∧
      (registered_callback m.registry self.fd_val ≠ val ∧ val ≠ Py_None ∧
          PyCallable_Check env val = true ∧ r.2.registry.global_nfds = 1 ∧
          m.lock = NULL ∧ env.new_lock ≠ NULL ∧ env.thread_ok = true)) := by
  rcases GPIO_set_callback_ok env m self val r h with ⟨h1, hr⟩ | ⟨h1, r1, hr⟩
  · rw [hr]
    exact Or.inl ⟨rfl, rfl, fun c => c.1 h1⟩
  · rw [hr]
    rcases GPIO_set_callback_install_cases env m r1 self val with
      ⟨a1, a2, a3⟩ | ⟨b1, b2, b3, b4, b5⟩ | ⟨c1, c2, c3, c4⟩
    · exact Or.inl ⟨a1, a2, fun c => a3 c.2⟩
    · exact Or.inr (Or.inl ⟨b1, b2, b3, b4, b5⟩)
    · exact Or.inr (Or.inr ⟨c1, c2, c3, h1, c4⟩)

theorem step_keeps_lifecycle_inv (m m' : Module) (a : Action) (hinv : lifecycle_inv m)
    (hstep : step m a = Except.ok m') : lifecycle_inv m' := by
  obtain ⟨hle, hlock⟩ := hinv
  cases a with
  | set_callback env self val =>
    simp only [step] at hstep
    cases hset : GPIO_set_callback env m self val with
    | error f => rw [hset] at hstep; cases hstep
    | ok r =>
      rw [hset] at hstep
      simp only [Except.ok.injEq] at hstep
      rw [← hstep]
      rcases GPIO_set_callback_cases env m self val r hset with
        ⟨h1, h2, _⟩ | ⟨_, h2, h3, _, h5⟩ | ⟨h1, h2, h3, h4⟩
      · exact ⟨by rw [h2]; exact hle, by rw [h1, h2]; exact hlock⟩
      · exact ⟨by rw [h5]; exact hle, by rw [h2]; exact fun _ => h3⟩
      · have hzero : m.dispatchers = 0 := by
          by_contra hne
          exact hlock (Nat.pos_of_ne_zero hne) h1
        exact ⟨by rw [h3, hzero], by rw [h2]; exact fun _ => h4.2.2.2.2.2.1⟩
  | dispatcher_exit retval =>
    by_cases hen : 0 < m.dispatchers ∧ (m.registry.global_nfds ≤ 0 ∨ retval ≤ 0)
    · simp only [step, hen, and_self, if_true, Except.ok.injEq] at hstep
      rw [← hstep]
      simp only [lifecycle_inv, t_bootstrap_exit]
      constructor
      · omega
      · intro hpos
        omega
    · simp only [step, hen, if_false, Except.ok.injEq] at hstep
      rw [← hstep]
      exact ⟨hle, hlock⟩

theorem run_keeps_lifecycle_inv (acts : List Action) (m m' : Module)
    (hinv : lifecycle_inv m) (hrun : run m acts = Except.ok m') : lifecycle_inv m' := by
  induction acts generalizing m with
  | nil =>
    simp only [run, Except.ok.injEq] at hrun
    rw [← hrun]; exact hinv
  | cons a rest ih =>
    simp only [run] at hrun
    cases hs : step m a with
    | error f => rw [hs] at hrun; cases hrun
    | ok m1 =>
      rw [hs] at hrun
      exact ih m1 (step_keeps_lifecycle_inv m m1 a hinv hs) hrun

/-- C8, the part that fails.  Register descriptors 5 and 7 (the first registration
starts the dispatcher), let the dispatcher leave its loop because `poll` failed, then
deregister descriptor 5 with `None`, every allocation succeeding.  The call leaves
`global_nfds = 1` and finds `lock == NULL`, yet starts no dispatcher: it returns
before the test that starts one. -/
theorem deregister_leaves_one_without_dispatcher :
    Reachable module_5_7_idle ∧
    module_5_7_idle.lock = NULL ∧
    module_5_7_idle.dispatchers = 0 ∧
    (∃ r, GPIO_set_callback env_ok module_5_7_idle { fd_val := 5 } Py_None = Except.ok r ∧
      r.2.registry.global_nfds = 1 ∧ r.2.lock = NULL ∧ r.2.dispatchers = 0) ∧
    ¬ (starts_dispatcher env_ok module_5_7_idle { fd_val := 5 } Py_None ↔
        ((∃ r, GPIO_set_callback env_ok module_5_7_idle { fd_val := 5 } Py_None =
              Except.ok r ∧ r.2.registry.global_nfds = 1) ∧
          module_5_7_idle.lock = NULL)) := by
  refine ⟨⟨acts_register_two_poll_fails, rfl⟩, by decide, by decide,
    ⟨_, rfl, by decide, by decide, by decide⟩, ?_⟩
  intro hiff
  obtain ⟨r, hr, hd⟩ := hiff.mpr ⟨⟨_, rfl, by decide⟩, by decide⟩
  have hr' := Except.ok.inj (hr.symm.trans
    (rfl : GPIO_set_callback env_ok module_5_7_idle { fd_val := 5 } Py_None = Except.ok _))
  rw [hr'] at hd
  revert hd
  decide

/-- C8 as amended.  In every state reachable from `initgpio` by calls of
`GPIO_set_callback` and dispatcher exits: at most one dispatcher is running; one is
running only while `lock` is non-`NULL`; a call of `GPIO_set_callback` made while
`lock` is non-`NULL` starts no dispatcher; and a call starts a dispatcher exactly
when it gets past its early returns (the value differs from the registered callback,
is not `None` and is callable), leaves `global_nfds = 1`, found `lock == NULL`, and
both the lock allocation and the thread start succeed. -/
theorem single_dispatcher (m : Module) (hm : Reachable m) :
    m.dispatchers ≤ 1 ∧
    (0 < m.dispatchers → m.lock ≠ NULL) ∧
    (∀ env self val, m.lock ≠ NULL →
      ¬ starts_dispatcher env m self val ∧
      ∀ r, GPIO_set_callback env m self val = Except.ok r →
        r.2.dispatchers = m.dispatchers) ∧
    (∀ env self val,
      starts_dispatcher env m self val ↔
        (registered_callback m.registry self.fd_val ≠ val ∧ val ≠ Py_None ∧
          PyCallable_Check env val = true ∧
          (∃ r, GPIO_set_callback env m self val = Except.ok r ∧
            r.2.registry.global_nfds = 1) ∧
          m.lock = NULL ∧ env.new_lock ≠ NULL ∧ env.thread_ok = true)) := by
  obtain ⟨acts, hacts⟩ := hm
  have hinit : lifecycle_inv initgpio := ⟨by decide, fun h => absurd h (by decide)⟩
  obtain ⟨hle, hlock⟩ := run_keeps_lifecycle_inv acts initgpio m hinit hacts
  have hsame : ∀ env self val, m.lock ≠ NULL →
      ∀ r, GPIO_set_callback env m self val = Except.ok r →
        r.2.dispatchers = m.dispatchers := by
    intro env self val hl r hr
    rcases GPIO_set_callback_cases env m self val r hr with
      ⟨_, h2, _⟩ | ⟨h1, _⟩ | ⟨h1, _⟩
    · exact h2
    · exact absurd h1 hl
    · exact absurd h1 hl
  refine ⟨hle, hlock, ?_, ?_⟩
  · intro env self val hl
    refine ⟨?_, hsame env self val hl⟩
    rintro ⟨r, hr, hd⟩
    have := hsame env self val hl r hr
    omega
  · intro env self val
    constructor
    · rintro ⟨r, hr, hd⟩
      rcases GPIO_set_callback_cases env m self val r hr with
        ⟨_, h2, _⟩ | ⟨_, _, _, _, h5⟩ | ⟨_, _, _, h4⟩
      · omega
      · omega
      · exact ⟨h4.1, h4.2.1, h4.2.2.1, ⟨r, hr, h4.2.2.2.1⟩, h4.2.2.2.2⟩
    · rintro ⟨c1, c2, c3, ⟨r, hr, hn⟩, c5, c6, c7⟩
      rcases GPIO_set_callback_cases env m self val r hr with
        ⟨_, _, h3⟩ | ⟨_, _, _, h4, _⟩ | ⟨_, _, h3, _⟩
      · exact absurd ⟨c1, c2, c3, hn, c5, c6, c7⟩ h3
      · rw [h4] at c7
        exact Bool.noConfusion c7
      · exact ⟨r, hr, h3⟩

/-- C8 as amended, at the state reached by registering descriptors 5 and 7, in which
the dispatcher started by the first registration is running. -/
theorem single_dispatcher_witness :
    Reachable module_5_7 ∧
    module_5_7.dispatchers = 1 ∧
    module_5_7.registry.global_nfds = 2 ∧
    (module_5_7.dispatchers ≤ 1 ∧
      (0 < module_5_7.dispatchers → module_5_7.lock ≠ NULL)) :=
  ⟨⟨acts_register_two, rfl⟩, by decide, by decide,
   (single_dispatcher module_5_7 ⟨acts_register_two, rfl⟩).1,
   (single_dispatcher module_5_7 ⟨acts_register_two, rfl⟩).2.1⟩

end GpioModule
